import Mathlib

/-!
Verification of the filter-preset derivation engine of the market-research
dashboard, a shallow embedding of `src/lib/preset-utils.ts`.

Modelling conventions:
* JavaScript numbers that carry market values and growth rates are modelled
  as rationals; the `cagr` field, which may be absent, `null` or `NaN`, is
  modelled by the three-valued `CagrValue`.
* Optional / possibly-missing object fields are `Option`s.
* A JavaScript `Map` is an association list in insertion order; `mapSet`
  overwrites an existing key in place and appends a fresh key at the end,
  exactly as `Map.prototype.set` does.
* `Array.prototype.sort` is stable with a consistent comparator, which
  determines its output uniquely; `stableSort` is that unique stable sort.
* Functions that can throw a `TypeError` on malformed shapes (an unguarded
  member access on a missing field) return `Except Unit`; `.error ()` marks
  the throw.  Functions whose every access is guarded return plain values.
-/

/-- The `cagr` field of a data record: absent or `null`, `NaN`, or a number. -/
inductive CagrValue where
  | missing : CagrValue
  | nan : CagrValue
  | num : ℚ → CagrValue
deriving DecidableEq, Repr

/-- One row of `data.value.geography_segment_matrix`. -/
structure DataRecord where
  geography : String
  time_series : Option (List (Int × ℚ))
  cagr : CagrValue
deriving DecidableEq, Repr

/-- One segmentation axis: `items` and the parent-to-children `hierarchy`. -/
structure SegmentDimension where
  items : Option (List String)
  hierarchy : Option (List (String × List String))
deriving DecidableEq, Repr

/-- The `dimensions.geographies` object. -/
structure GeographiesDimension where
  all_geographies : Option (List String)
deriving DecidableEq, Repr

/-- The `dimensions` object of a dataset. -/
structure DatasetDimensions where
  geographies : Option GeographiesDimension
  segments : Option (List (String × SegmentDimension))
deriving DecidableEq, Repr

/-- The `data.value` object, holding the geography/segment matrix. -/
structure ValueData where
  geography_segment_matrix : Option (List DataRecord)
deriving DecidableEq, Repr

/-- The `data` object of a dataset. -/
structure DatasetData where
  value : Option ValueData
deriving DecidableEq, Repr

/-- The root dataset shape (`ComparisonData` in the source). -/
structure ComparisonData where
  dimensions : Option DatasetDimensions
  data : Option DatasetData
deriving DecidableEq, Repr

/-- The output filter configuration (`Partial<FilterState>`): every field is
optional, `none` meaning the field is not populated. -/
structure FilterState where
  viewMode : Option String
  geographies : Option (List String)
  segments : Option (List String)
  segmentType : Option String
  yearRange : Option (Int × Int)
  dataType : Option String
deriving DecidableEq, Repr

/-- `Map.prototype.get` on an insertion-ordered association list. -/
def mapGet {β : Type} (m : List (String × β)) (k : String) : Option β :=
  (m.find? (fun p => p.1 == k)).map (fun p => p.2)

/-- `Map.prototype.set`: overwrite an existing key in place, append a new one. -/
def mapSet {β : Type} (m : List (String × β)) (k : String) (v : β) :
    List (String × β) :=
  if m.any (fun p => p.1 == k) then
    m.map (fun p => if p.1 == k then (k, v) else p)
  else m ++ [(k, v)]

/-- Lexicographic strict comparison of character lists, mirroring the code-unit
comparison JavaScript's default string sort performs. -/
def lexLt : List Char → List Char → Bool
  | [], [] => false
  | [], _ :: _ => true
  | _ :: _, [] => false
  | a :: as, b :: bs => if a < b then true else if b < a then false else lexLt as bs

/-- Lexicographic non-strict comparison of strings. -/
def strLe (a b : String) : Bool := !(lexLt b.data a.data)

/-- Insert an element into a list, before the first element it must precede;
with `le x y` meaning x may stay before y this realises a stable sort. -/
def insSorted {α : Type} (le : α → α → Bool) (x : α) : List α → List α
  | [] => [x]
  | y :: ys => if le x y then x :: y :: ys else y :: insSorted le x ys

/-- The unique stable sort with respect to the Boolean comparison `le`,
modelling `Array.prototype.sort` with a consistent comparator. -/
def stableSort {α : Type} (le : α → α → Bool) : List α → List α
  | [] => []
  | x :: xs => insSorted le x (stableSort le xs)

/-- Comparator `(a, b) => b[1] - a[1]`: descending by the numeric component,
`le a b` meaning a need not move past b. -/
def valDescLe {α : Type} (a b : α × ℚ) : Bool := decide (b.2 ≤ a.2)

/-- `record.time_series?.[year] || 0`: the value a record contributes for a
year, 0 when the series or the year is missing. -/
def tsValue (r : DataRecord) (year : Int) : ℚ :=
  match r.time_series with
  | none => 0
  | some ts => (((ts.find? (fun p => p.1 == year)).map (fun p => p.2)).getD 0)

/-- One `forEach` step of the aggregation in `getTopRegionsByMarketValue`:
skip `"Global"`, otherwise add the record's value for the year onto the
geography's running total. -/
def aggStep (year : Int) (m : List (String × ℚ)) (r : DataRecord) :
    List (String × ℚ) :=
  if r.geography == "Global" then m
  else mapSet m r.geography (((mapGet m r.geography).getD 0) + tsValue r year)

/-- The `geographyTotals` map built by `getTopRegionsByMarketValue`. -/
def aggregateByValue (records : List DataRecord) (year : Int) :
    List (String × ℚ) :=
  records.foldl (aggStep year) []

/-- `getTopRegionsByMarketValue` from `src/lib/preset-utils.ts`. -/
def getTopRegionsByMarketValue (data : Option ComparisonData) (year : Int)
    (topN : Nat) : List String :=
  match data with
  | none => []
  | some d =>
    match d.data with
    | none => []
    | some dd =>
      match dd.value with
      | none => []
      | some v =>
        match v.geography_segment_matrix with
        | none => []
        | some records =>
          if records.isEmpty then []
          else
            ((stableSort valDescLe (aggregateByValue records year)).take
              topN).map (fun p => p.1)

/-- The guard `cagr !== undefined && cagr !== null && !isNaN(cagr)`: the
numeric value when the record's CAGR is valid, `none` otherwise. -/
def validCagr : CagrValue → Option ℚ
  | CagrValue.num q => some q
  | _ => none

/-- `cagrs.reduce((a, b) => a + b, 0) / cagrs.length`. -/
def avgOf (l : List ℚ) : ℚ := (l.foldl (· + ·) 0) / (l.length : ℚ)

/-- One `forEach` step of the CAGR aggregation: skip `"Global"`, and push the
record's CAGR onto the geography's list only when it is valid. -/
def cagrStep (m : List (String × List ℚ)) (r : DataRecord) :
    List (String × List ℚ) :=
  if r.geography == "Global" then m
  else
    match validCagr r.cagr with
    | none => m
    | some q => mapSet m r.geography (((mapGet m r.geography).getD []) ++ [q])

/-- The `geographyCAGRs` map built by both CAGR ranking functions. -/
def aggregateCagr (records : List DataRecord) : List (String × List ℚ) :=
  records.foldl cagrStep []

/-- `getTopRegionsByCAGR` from `src/lib/preset-utils.ts`. -/
def getTopRegionsByCAGR (data : Option ComparisonData) (topN : Nat) :
    List String :=
  match data with
  | none => []
  | some d =>
    match d.data with
    | none => []
    | some dd =>
      match dd.value with
      | none => []
      | some v =>
        match v.geography_segment_matrix with
        | none => []
        | some records =>
          if records.isEmpty then []
          else
            let m := aggregateCagr records
            if m.isEmpty then []
            else
              ((stableSort valDescLe
                  (m.map (fun p => (p.1, avgOf p.2)))).take topN).map
                (fun p => p.1)

/-- `getTopCountriesByCAGR` from `src/lib/preset-utils.ts`; the source
duplicates the body of `getTopRegionsByCAGR` verbatim. -/
def getTopCountriesByCAGR (data : Option ComparisonData) (topN : Nat) :
    List String :=
  match data with
  | none => []
  | some d =>
    match d.data with
    | none => []
    | some dd =>
      match dd.value with
      | none => []
      | some v =>
        match v.geography_segment_matrix with
        | none => []
        | some records =>
          if records.isEmpty then []
          else
            let m := aggregateCagr records
            if m.isEmpty then []
            else
              ((stableSort valDescLe
                  (m.map (fun p => (p.1, avgOf p.2)))).take topN).map
                (fun p => p.1)

/-- The set of segments that appear as a child under any parent. -/
def allChildrenOf (hierarchy : List (String × List String)) : List String :=
  (hierarchy.map (fun p => p.2)).flatten

/-- The body of `getFirstLevelSegments` once the segment dimension is in
hand (source lines 90-111): parents that are nobody's child and have at
least one child, plus items that are neither parents nor children, sorted. -/
def firstLevelCore (sd : SegmentDimension) : List String :=
  let hierarchy := sd.hierarchy.getD []
  let allSegments := sd.items.getD []
  let allChildren := allChildrenOf hierarchy
  let parents := (hierarchy.map (fun p => p.1)).filter
    (fun p => !(allChildren.contains p) && !(((mapGet hierarchy p).getD []).isEmpty))
  let standalone := allSegments.filter
    (fun s => !(allChildren.contains s) && ((mapGet hierarchy s).isNone))
  stableSort strLe (parents ++ standalone)

/-- `getFirstLevelSegments` from `src/lib/preset-utils.ts`.  The access
`data.dimensions.segments[segmentType]` is unguarded in the source, so a
missing `dimensions` or `dimensions.segments` throws, modelled `.error ()`. -/
def getFirstLevelSegments (data : Option ComparisonData) (segmentType : String) :
    Except Unit (List String) :=
  match data with
  | none => Except.ok []
  | some d =>
    match d.dimensions with
    | none => Except.error ()
    | some dims =>
      match dims.segments with
      | none => Except.error ()
      | some segs =>
        match mapGet segs segmentType with
        | none => Except.ok []
        | some sd => Except.ok (firstLevelCore sd)

/-- `getFirstSegmentType` from `src/lib/preset-utils.ts`.  The guard reads
`!data || !data.dimensions.segments`, so a missing `dimensions` throws while
a missing `dimensions.segments` is absorbed. -/
def getFirstSegmentType (data : Option ComparisonData) :
    Except Unit (Option String) :=
  match data with
  | none => Except.ok none
  | some d =>
    match d.dimensions with
    | none => Except.error ()
    | some dims =>
      match dims.segments with
      | none => Except.ok none
      | some segs => Except.ok ((segs.map (fun p => p.1)).head?)

/-- Truthiness of the `firstSegmentType` value: a present, non-empty string. -/
def truthyStr (o : Option String) : Bool :=
  match o with
  | some s => !(s == "")
  | none => false

/-- The optional chain `data.dimensions?.geographies?.all_geographies`. -/
def allGeographiesOf (d : ComparisonData) : Option (List String) :=
  match d.dimensions with
  | none => none
  | some dims =>
    match dims.geographies with
    | none => none
    | some g => g.all_geographies

/-- The optional chain `data.dimensions?.segments`. -/
def segmentsMapOf (d : ComparisonData) : Option (List (String × SegmentDimension)) :=
  match d.dimensions with
  | none => none
  | some dims => dims.segments

/-- The shared first-level-segment step of every preset builder:
`firstSegmentType ? getFirstLevelSegments(data, firstSegmentType) : []`. -/
def builderSegmentsStep (d : ComparisonData) (firstSegmentType : Option String) :
    Except Unit (List String) :=
  match firstSegmentType with
  | some t => if t == "" then Except.ok [] else getFirstLevelSegments (some d) t
  | none => Except.ok []

/-- The shared geography fallback of every preset builder: when the ranked
list is empty and the `all_geographies` path exists, take the first `n`
non-Global entries, else keep the ranked list. -/
def builderGeoChoice (d : ComparisonData) (ranked : List String) (n : Nat) :
    List String :=
  if ranked.isEmpty then
    match allGeographiesOf d with
    | some allGeos => (allGeos.filter (fun g => !(g == "Global"))).take n
    | none => ranked
  else ranked

/-- The shared segment fallback of every preset builder: when the first-level
list is empty and a truthy segment type resolves to a dimension, take the
first three raw items, else keep the first-level list. -/
def builderSegChoice (d : ComparisonData) (firstSegmentType : Option String)
    (firstLevelSegments : List String) : List String :=
  if firstLevelSegments.isEmpty then
    match firstSegmentType with
    | some t =>
      if t == "" then firstLevelSegments
      else
        match segmentsMapOf d with
        | some segs =>
          match mapGet segs t with
          | some sd => (sd.items.getD []).take 3
          | none => firstLevelSegments
        | none => firstLevelSegments
    | none => firstLevelSegments
  else firstLevelSegments

/-- `firstSegmentType || 'By Drug Class'`. -/
def builderSegmentType (firstSegmentType : Option String) : String :=
  match firstSegmentType with
  | some t => if t == "" then "By Drug Class" else t
  | none => "By Drug Class"

/-- `createTopMarketFilters` from `src/lib/preset-utils.ts`. -/
def createTopMarketFilters (data : Option ComparisonData) :
    Except Unit FilterState :=
  match data with
  | none =>
    Except.ok { viewMode := some "geography-mode", geographies := none,
                segments := none, segmentType := none,
                yearRange := some (2024, 2028), dataType := some "value" }
  | some d =>
    let topRegions := getTopRegionsByMarketValue (some d) 2024 3
    match getFirstSegmentType (some d) with
    | Except.error e => Except.error e
    | Except.ok firstSegmentType =>
      match builderSegmentsStep d firstSegmentType with
      | Except.error e => Except.error e
      | Except.ok firstLevelSegments =>
        Except.ok
          { viewMode := some "geography-mode",
            geographies := some (builderGeoChoice d topRegions 3),
            segments := some (builderSegChoice d firstSegmentType firstLevelSegments),
            segmentType := some (builderSegmentType firstSegmentType),
            yearRange := some (2024, 2028),
            dataType := some "value" }

/-- `createGrowthLeadersFilters` from `src/lib/preset-utils.ts`. -/
def createGrowthLeadersFilters (data : Option ComparisonData) :
    Except Unit FilterState :=
  match data with
  | none =>
    Except.ok { viewMode := some "geography-mode", geographies := none,
                segments := none, segmentType := none,
                yearRange := some (2024, 2032), dataType := some "value" }
  | some d =>
    let topRegions := getTopRegionsByCAGR (some d) 2
    match getFirstSegmentType (some d) with
    | Except.error e => Except.error e
    | Except.ok firstSegmentType =>
      match builderSegmentsStep d firstSegmentType with
      | Except.error e => Except.error e
      | Except.ok firstLevelSegments =>
        Except.ok
          { viewMode := some "geography-mode",
            geographies := some (builderGeoChoice d topRegions 2),
            segments := some (builderSegChoice d firstSegmentType firstLevelSegments),
            segmentType := some (builderSegmentType firstSegmentType),
            yearRange := some (2024, 2032),
            dataType := some "value" }

/-- `createEmergingMarketsFilters` from `src/lib/preset-utils.ts`. -/
def createEmergingMarketsFilters (data : Option ComparisonData) :
    Except Unit FilterState :=
  match data with
  | none =>
    Except.ok { viewMode := some "geography-mode", geographies := none,
                segments := none, segmentType := none,
                yearRange := some (2024, 2032), dataType := some "value" }
  | some d =>
    let topCountries := getTopCountriesByCAGR (some d) 5
    match getFirstSegmentType (some d) with
    | Except.error e => Except.error e
    | Except.ok firstSegmentType =>
      match builderSegmentsStep d firstSegmentType with
      | Except.error e => Except.error e
      | Except.ok firstLevelSegments =>
        Except.ok
          { viewMode := some "geography-mode",
            geographies := some (builderGeoChoice d topCountries 5),
            segments := some (builderSegChoice d firstSegmentType firstLevelSegments),
            segmentType := some (builderSegmentType firstSegmentType),
            yearRange := some (2024, 2032),
            dataType := some "value" }

/-! ### Helper notions used to state and prove the claims -/

/-- Collect keys in first-occurrence order: the key sequence a JavaScript
`Map` exposes after inserting each element of `gs` in turn. -/
def addKeys (ks gs : List String) : List String :=
  gs.foldl (fun ks g => if g ∈ ks then ks else ks ++ [g]) ks

/-- Position of the first occurrence of `a` in `l`. -/
def posIn (l : List String) (a : String) : Nat := l.findIdx (fun x => x == a)

/-- The geography names of the records, `"Global"` removed, in record order. -/
def nonGlobalGeos (records : List DataRecord) : List String :=
  (records.map (fun r => r.geography)).filter (fun g => !(g == "Global"))

/-- The geography names of non-Global records carrying a valid CAGR. -/
def validCagrGeos (records : List DataRecord) : List String :=
  records.filterMap (fun r =>
    if r.geography == "Global" then none
    else
      match validCagr r.cagr with
      | some _ => some r.geography
      | none => none)

/-- Total market value of a geography: the sum of `time_series[year]` over all
records of that geography (missing year contributing 0). -/
def sumVals (records : List DataRecord) (year : Int) (g : String) : ℚ :=
  ((records.filter (fun r => r.geography == g)).map (fun r => tsValue r year)).sum

/-- The path `data.data.value.geography_segment_matrix`, as one optional. -/
def matrixOf (d : ComparisonData) : Option (List DataRecord) :=
  match d.data with
  | none => none
  | some dd =>
    match dd.value with
    | none => none
    | some v => v.geography_segment_matrix

/-- Index of the first record of a geography in the record sequence. -/
def recFirstIdx (records : List DataRecord) (g : String) : Nat :=
  records.findIdx (fun r => r.geography == g)

/-- Whether a record's time series carries an entry for the year. -/
def hasYear (r : DataRecord) (year : Int) : Bool :=
  match r.time_series with
  | none => false
  | some ts => (ts.find? (fun p => p.1 == year)).isSome

/-- A dataset whose `dimensions` object is entirely absent. -/
def malformedNoDims : ComparisonData := { dimensions := none, data := none }

/-- A dataset with a `dimensions` object but no `dimensions.segments`. -/
def malformedNoSegments : ComparisonData :=
  { dimensions := some { geographies := none, segments := none }, data := none }

/-- Growth scenario records: A averages 5% CAGR, B averages 9%, C has only an
invalid (NaN) CAGR. -/
def growthRecords : List DataRecord :=
  [{ geography := "A", time_series := none, cagr := CagrValue.num 5 },
   { geography := "B", time_series := none, cagr := CagrValue.num 9 },
   { geography := "C", time_series := none, cagr := CagrValue.nan }]

/-- Growth scenario dataset. -/
def growthDataset : ComparisonData :=
  { dimensions := some { geographies := none, segments := none },
    data := some { value := some { geography_segment_matrix := some growthRecords } } }

/-- Fallback scenario: five listed geographies, no value records at all. -/
def fallbackDataset : ComparisonData :=
  { dimensions := some
      { geographies := some { all_geographies := some ["Global", "A", "B", "C", "D"] },
        segments := none },
    data := some { value := some { geography_segment_matrix := some [] } } }

/-- A dataset whose only listed geography is the `"Global"` roll-up. -/
def globalOnlyDataset : ComparisonData :=
  { dimensions := some
      { geographies := some { all_geographies := some ["Global"] },
        segments := none },
    data := some { value := some { geography_segment_matrix := some [] } } }

/-- Hierarchy scenario segment dimension: X is a parent of Y and Z, W stands
alone. -/
def hierarchySegDim : SegmentDimension :=
  { items := some ["X", "Y", "Z", "W"], hierarchy := some [("X", ["Y", "Z"])] }

/-- Hierarchy scenario dataset. -/
def hierarchyDataset : ComparisonData :=
  { dimensions := some
      { geographies := none, segments := some [("T", hierarchySegDim)] },
    data := none }

/-- Stable-tie scenario records: P and Q tie on total value, R trails, and a
Global record is present. -/
def tieRecords : List DataRecord :=
  [{ geography := "P", time_series := some [((2024 : Int), (3 : ℚ))],
     cagr := CagrValue.missing },
   { geography := "Q", time_series := some [((2024 : Int), (5 : ℚ))],
     cagr := CagrValue.missing },
   { geography := "R", time_series := some [((2024 : Int), (3 : ℚ))],
     cagr := CagrValue.missing },
   { geography := "P", time_series := some [((2024 : Int), (2 : ℚ))],
     cagr := CagrValue.missing },
   { geography := "Global", time_series := some [((2024 : Int), (99 : ℚ))],
     cagr := CagrValue.missing }]

/-- Stable-tie scenario dataset, with all five geographies listed. -/
def tieDataset : ComparisonData :=
  { dimensions := some
      { geographies := some { all_geographies := some ["Global", "P", "Q", "R"] },
        segments := none },
    data := some { value := some { geography_segment_matrix := some tieRecords } } }

/-! ### Generic facts about the stable sort -/


theorem mem_insSorted {α : Type} (le : α → α → Bool) (x a : α) :
    ∀ l : List α, a ∈ insSorted le x l ↔ a = x ∨ a ∈ l := by
  intro l
  induction l with
  | nil => simp [insSorted]
  | cons y ys ih =>
    cases hle : le x y with
    | true =>
      simp only [insSorted, hle, if_true, List.mem_cons]
    | false =>
      simp only [insSorted, hle, Bool.false_eq_true, if_false, List.mem_cons, ih]
      tauto

theorem mem_stableSort {α : Type} (le : α → α → Bool) (a : α) :
    ∀ l : List α, a ∈ stableSort le l ↔ a ∈ l := by
  intro l
  induction l with
  | nil => simp [stableSort]
  | cons x xs ih =>
    simp [stableSort, mem_insSorted, ih]

theorem length_insSorted {α : Type} (le : α → α → Bool) (x : α) :
    ∀ l : List α, (insSorted le x l).length = l.length + 1 := by
  intro l
  induction l with
  | nil => simp [insSorted]
  | cons y ys ih =>
    cases hle : le x y with
    | true => simp [insSorted, hle]
    | false => simp [insSorted, hle, ih]

theorem length_stableSort {α : Type} (le : α → α → Bool) :
    ∀ l : List α, (stableSort le l).length = l.length := by
  intro l
  induction l with
  | nil => rfl
  | cons x xs ih => simp [stableSort, length_insSorted, ih]

theorem pairwise_insSorted {α : Type} {le : α → α → Bool} {R : α → α → Prop}
    (htrans : ∀ a b c, R a b → R b c → R a c) (x : α) :
    ∀ l : List α, l.Pairwise R →
    (∀ y ∈ l, (le x y = true → R x y) ∧ (le x y = false → R y x)) →
    (insSorted le x l).Pairwise R := by
  intro l
  induction l with
  | nil => intro _ _; simp [insSorted]
  | cons y ys ih =>
    intro hl hx
    rcases List.pairwise_cons.mp hl with ⟨hy, hys⟩
    cases hle : le x y with
    | true =>
      simp only [insSorted, hle, if_true]
      refine List.pairwise_cons.mpr ⟨?_, hl⟩
      intro z hz
      have hxy : R x y := (hx y (List.mem_cons_self y ys)).1 hle
      rcases List.mem_cons.mp hz with rfl | hz'
      · exact hxy
      · exact htrans _ _ _ hxy (hy z hz')
    | false =>
      simp only [insSorted, hle, Bool.false_eq_true, if_false]
      refine List.pairwise_cons.mpr ⟨?_, ?_⟩
      · intro z hz
        rcases (mem_insSorted le x z ys).mp hz with rfl | hz'
        · exact (hx y (List.mem_cons_self y ys)).2 hle
        · exact hy z hz'
      · exact ih hys (fun z hz => hx z (List.mem_cons_of_mem y hz))

theorem pairwise_stableSort {α : Type} {le : α → α → Bool} {R : α → α → Prop}
    (htrans : ∀ a b c, R a b → R b c → R a c) :
    ∀ l : List α,
    l.Pairwise (fun x y => (le x y = true → R x y) ∧ (le x y = false → R y x)) →
    (stableSort le l).Pairwise R := by
  intro l
  induction l with
  | nil => intro _; simp [stableSort]
  | cons x xs ih =>
    intro hl
    rcases List.pairwise_cons.mp hl with ⟨hx, hxs⟩
    exact pairwise_insSorted htrans x (stableSort le xs) (ih hxs)
      (fun y hy => hx y ((mem_stableSort le y xs).mp hy))

/-! ### Facts about the insertion-ordered map -/

theorem find?_key_map_update {β : Type} (k g : String) (v : β) (hgk : g ≠ k) :
    ∀ m : List (String × β),
    List.find? (fun p => p.1 == g)
      (m.map (fun p => if p.1 == k then (k, v) else p)) =
    List.find? (fun p => p.1 == g) m := by
  intro m
  induction m with
  | nil => rfl
  | cons p m' ih =>
    simp only [List.map_cons, List.find?_cons]
    cases hpk : (p.1 == k) with
    | true =>
      have hpk' : p.1 = k := by simpa using hpk
      have h1 : (((k, v) : String × β).1 == g) = false := by
        simp only [beq_eq_false_iff_ne, ne_eq]
        exact fun h => hgk h.symm
      have h2 : (p.1 == g) = false := by
        simp only [beq_eq_false_iff_ne, ne_eq, hpk']
        exact fun h => hgk h.symm
      simp only [hpk, if_true, h1, h2, cond_false, ih]
    | false =>
      simp only [hpk, Bool.false_eq_true, if_false]
      cases hpg : (p.1 == g) with
      | true => simp only [hpg, cond_true]
      | false => simp only [hpg, cond_false, ih]

theorem find?_key_map_update_self {β : Type} (k : String) (v : β) :
    ∀ m : List (String × β), m.any (fun p => p.1 == k) = true →
    List.find? (fun p => p.1 == k)
      (m.map (fun p => if p.1 == k then (k, v) else p)) = some (k, v) := by
  intro m
  induction m with
  | nil => intro h; simp at h
  | cons p m' ih =>
    intro hany
    simp only [List.map_cons, List.find?_cons]
    cases hpk : (p.1 == k) with
    | true =>
      simp only [hpk, if_true, beq_self_eq_true, cond_true]
    | false =>
      have hany' : m'.any (fun p => p.1 == k) = true := by
        simpa [List.any_cons, hpk] using hany
      simp only [hpk, Bool.false_eq_true, if_false, cond_false, ih hany']

theorem find?_append_cases {α : Type} (p : α → Bool) (l₁ l₂ : List α) :
    List.find? p (l₁ ++ l₂) =
      match List.find? p l₁ with
      | some x => some x
      | none => List.find? p l₂ := by
  induction l₁ with
  | nil => simp
  | cons a l₁' ih =>
    cases ha : p a with
    | true => simp only [List.cons_append, List.find?_cons, ha, cond_true]
    | false => simp only [List.cons_append, List.find?_cons, ha, cond_false, ih]

theorem any_key_iff {β : Type} (m : List (String × β)) (k : String) :
    m.any (fun p => p.1 == k) = true ↔ k ∈ m.map (fun p => p.1) := by
  simp only [List.any_eq_true, beq_iff_eq, List.mem_map]

theorem mapGet_eq_none_iff {β : Type} (m : List (String × β)) (k : String) :
    mapGet m k = none ↔ k ∉ m.map (fun p => p.1) := by
  constructor
  · intro h hmem
    rcases List.mem_map.mp hmem with ⟨p, hp, hk⟩
    have hf := Option.map_eq_none'.mp h
    have := List.find?_eq_none.mp hf p hp
    simp only [beq_iff_eq] at this
    exact this hk
  · intro h
    apply Option.map_eq_none'.mpr
    apply List.find?_eq_none.mpr
    intro p hp hk
    exact h (List.mem_map.mpr ⟨p, hp, by simpa using hk⟩)

theorem mapGet_mapSet {β : Type} (k : String) (v : β) (m : List (String × β))
    (g : String) :
    mapGet (mapSet m k v) g = if g = k then some v else mapGet m g := by
  cases hany : m.any (fun p => p.1 == k) with
  | true =>
    by_cases hgk : g = k
    · subst hgk
      simp only [mapSet, hany, if_true, mapGet,
        find?_key_map_update_self g v m hany]
      simp
    · simp only [mapSet, hany, if_true, mapGet, if_neg hgk,
        find?_key_map_update k g v hgk m]
  | false =>
    by_cases hgk : g = k
    · subst hgk
      have hnone : List.find? (fun p => p.1 == g) m = none := by
        apply List.find?_eq_none.mpr
        intro p hp hpg
        have : m.any (fun q => q.1 == g) = true :=
          List.any_eq_true.mpr ⟨p, hp, hpg⟩
        rw [this] at hany
        exact Bool.true_eq_false.mp hany
      simp only [mapSet, hany, Bool.false_eq_true, if_false, mapGet,
        find?_append_cases, hnone, List.find?_cons, beq_self_eq_true, cond_true]
      simp
    · have hk : (((k, v) : String × β).1 == g) = false := by
        simp only [beq_eq_false_iff_ne, ne_eq]
        exact fun h => hgk h.symm
      simp only [mapSet, hany, Bool.false_eq_true, if_false, mapGet,
        find?_append_cases, if_neg hgk]
      cases hf : List.find? (fun p => p.1 == g) m with
      | none => simp [List.find?_cons, hk]
      | some x => simp

theorem fst_mapSet {β : Type} (k : String) (v : β) (m : List (String × β)) :
    (mapSet m k v).map (fun p => p.1) =
      if k ∈ m.map (fun p => p.1) then m.map (fun p => p.1)
      else m.map (fun p => p.1) ++ [k] := by
  by_cases hmem : k ∈ m.map (fun p => p.1)
  · have hany : m.any (fun p => p.1 == k) = true := (any_key_iff m k).mpr hmem
    simp only [mapSet, hany, if_true, if_pos hmem, List.map_map]
    apply List.map_congr_left
    intro p _
    cases hpk : (p.1 == k) with
    | true =>
      have : p.1 = k := by simpa using hpk
      simp [Function.comp, hpk, this]
    | false => simp [Function.comp, hpk]
  · have hany : m.any (fun p => p.1 == k) = false := by
      cases h : m.any (fun p => p.1 == k) with
      | true => exact absurd ((any_key_iff m k).mp h) hmem
      | false => rfl
    simp [mapSet, hany, if_neg hmem]

theorem mapGet_of_mem_nodup {β : Type} :
    ∀ (m : List (String × β)), (m.map (fun p => p.1)).Nodup →
    ∀ p ∈ m, mapGet m p.1 = some p.2 := by
  intro m
  induction m with
  | nil => intro _ p hp; simp at hp
  | cons q m' ih =>
    intro hnd p hp
    rcases List.pairwise_cons.mp hnd with ⟨hq, hnd'⟩
    rcases List.mem_cons.mp hp with rfl | hp'
    · simp [mapGet, List.find?_cons]
    · have hne : (q.1 == p.1) = false := by
        simp only [beq_eq_false_iff_ne, ne_eq]
        intro h
        exact hq p.1 (List.mem_map.mpr ⟨p, hp', rfl⟩) h
      simp only [mapGet, List.find?_cons, hne, cond_false]
      exact ih hnd' p hp'

/-! ### Keys of the aggregation maps, in first-occurrence order -/

theorem addKeys_nil (ks : List String) : addKeys ks [] = ks := rfl

theorem addKeys_cons (ks : List String) (g : String) (gs : List String) :
    addKeys ks (g :: gs) = addKeys (if g ∈ ks then ks else ks ++ [g]) gs := rfl

theorem mem_addKeys (a : String) :
    ∀ (gs ks : List String), a ∈ addKeys ks gs ↔ a ∈ ks ∨ a ∈ gs := by
  intro gs
  induction gs with
  | nil => intro ks; simp [addKeys_nil]
  | cons g gs' ih =>
    intro ks
    rw [addKeys_cons]
    by_cases hg : g ∈ ks
    · rw [if_pos hg, ih]
      simp only [List.mem_cons]
      constructor
      · rintro (h | h)
        · exact Or.inl h
        · exact Or.inr (Or.inr h)
      · rintro (h | rfl | h)
        · exact Or.inl h
        · exact Or.inl hg
        · exact Or.inr h
    · rw [if_neg hg, ih]
      simp only [List.mem_append, List.mem_singleton, List.mem_cons]
      tauto

theorem nodup_addKeys :
    ∀ (gs ks : List String), ks.Nodup → (addKeys ks gs).Nodup := by
  intro gs
  induction gs with
  | nil => intro ks h; exact h
  | cons g gs' ih =>
    intro ks hks
    rw [addKeys_cons]
    by_cases hg : g ∈ ks
    · rw [if_pos hg]; exact ih ks hks
    · rw [if_neg hg]
      apply ih
      rw [List.nodup_append]
      refine ⟨hks, List.nodup_singleton _, ?_⟩
      intro a ha hag
      rw [List.mem_singleton] at hag
      exact hg (hag ▸ ha)

theorem posIn_cons_self (a : String) (l : List String) :
    posIn (a :: l) a = 0 := by
  simp [posIn, List.findIdx_cons]

theorem posIn_cons_ne (a b : String) (l : List String) (h : b ≠ a) :
    posIn (b :: l) a = posIn l a + 1 := by
  have : (b == a) = false := by simpa using h
  simp [posIn, List.findIdx_cons, this]

theorem posIn_append_left (a : String) :
    ∀ (l₁ l₂ : List String), a ∈ l₁ → posIn (l₁ ++ l₂) a < l₁.length := by
  intro l₁
  induction l₁ with
  | nil => intro l₂ h; simp at h
  | cons b l₁' ih =>
    intro l₂ h
    by_cases hb : b = a
    · subst hb
      simp [posIn_cons_self]
    · have ha : a ∈ l₁' := by
        rcases List.mem_cons.mp h with rfl | h'
        · exact absurd rfl hb
        · exact h'
      rw [List.cons_append, posIn_cons_ne a b _ hb]
      simpa [Nat.succ_lt_succ_iff] using ih l₂ ha

theorem posIn_append_right (a : String) :
    ∀ (l₁ l₂ : List String), a ∉ l₁ →
    posIn (l₁ ++ l₂) a = l₁.length + posIn l₂ a := by
  intro l₁
  induction l₁ with
  | nil => intro l₂ _; simp
  | cons b l₁' ih =>
    intro l₂ h
    have hb : b ≠ a := fun hba => h (hba ▸ List.mem_cons_self b l₁')
    have ha : a ∉ l₁' := fun h' => h (List.mem_cons_of_mem b h')
    rw [List.cons_append, posIn_cons_ne a b _ hb, ih l₂ ha, List.length_cons]
    omega

theorem addKeys_pairwise_posIn (gs : List String) :
    ∀ (suffix consumed ks : List String), gs = consumed ++ suffix →
    (∀ k, k ∈ ks ↔ k ∈ consumed) → ks.Nodup →
    ks.Pairwise (fun a b => posIn gs a < posIn gs b) →
    (addKeys ks suffix).Pairwise (fun a b => posIn gs a < posIn gs b) := by
  intro suffix
  induction suffix with
  | nil => intro consumed ks _ _ _ hp; exact hp
  | cons g suffix' ih =>
    intro consumed ks hgs hmem hnd hp
    rw [addKeys_cons]
    by_cases hg : g ∈ ks
    · rw [if_pos hg]
      apply ih (consumed ++ [g]) ks
      · rw [hgs, List.append_assoc]; rfl
      · intro k
        rw [hmem k]
        simp only [List.mem_append, List.mem_singleton]
        constructor
        · exact Or.inl
        · rintro (h | rfl)
          · exact h
          · exact (hmem k).mp hg
      · exact hnd
      · exact hp
    · rw [if_neg hg]
      have hgc : g ∉ consumed := fun h => hg ((hmem g).mpr h)
      have hposg : posIn gs g = consumed.length := by
        rw [hgs, posIn_append_right g consumed _ hgc, posIn_cons_self]
        omega
      apply ih (consumed ++ [g]) (ks ++ [g])
      · rw [hgs, List.append_assoc]; rfl
      · intro k
        simp only [List.mem_append, List.mem_singleton, hmem k]
      · rw [List.nodup_append]
        refine ⟨hnd, List.nodup_singleton _, ?_⟩
        intro a ha hag
        rw [List.mem_singleton] at hag
        exact hg (hag ▸ ha)
      · rw [List.pairwise_append]
        refine ⟨hp, List.pairwise_singleton _ _, ?_⟩
        intro a ha b hb
        rcases List.mem_singleton.mp hb with rfl
        have hac : a ∈ consumed := (hmem a).mp ha
        have : posIn gs a < consumed.length := by
          rw [hgs]; exact posIn_append_left a consumed _ hac
        omega

theorem aggKeys_sorted_first_occurrence (gs : List String) :
    (addKeys [] gs).Pairwise (fun a b => posIn gs a < posIn gs b) := by
  apply addKeys_pairwise_posIn gs gs [] []
  · rfl
  · intro k; simp
  · exact List.nodup_nil
  · exact List.Pairwise.nil

/-! ### Facts about the aggregation folds -/

theorem mem_nonGlobalGeos (records : List DataRecord) (g : String) :
    g ∈ nonGlobalGeos records ↔
      (∃ r ∈ records, r.geography = g) ∧ g ≠ "Global" := by
  simp only [nonGlobalGeos, List.mem_filter, List.mem_map, Bool.not_eq_true',
    beq_eq_false_iff_ne, ne_eq]

theorem mem_validCagrGeos (records : List DataRecord) (g : String) :
    g ∈ validCagrGeos records ↔
      ∃ r ∈ records, r.geography = g ∧ g ≠ "Global" ∧
        ∃ q, validCagr r.cagr = some q := by
  simp only [validCagrGeos, List.mem_filterMap]
  constructor
  · rintro ⟨r, hr, heq⟩
    by_cases hgl : (r.geography == "Global") = true
    · rw [if_pos hgl] at heq; exact absurd heq (by simp)
    · have hgl' : (r.geography == "Global") = false := by simpa using hgl
      rw [if_neg (by simp [hgl'])] at heq
      cases hv : validCagr r.cagr with
      | none => rw [hv] at heq; exact absurd heq (by simp)
      | some q =>
        rw [hv] at heq
        have hg : r.geography = g := by simpa using heq
        refine ⟨r, hr, hg, ?_, q, hv⟩
        rw [← hg]
        simpa using hgl'
  · rintro ⟨r, hr, rfl, hng, q, hv⟩
    refine ⟨r, hr, ?_⟩
    have hgl : (r.geography == "Global") = false := by simpa using hng
    rw [if_neg (by simp [hgl]), hv]

theorem foldl_aggStep_keys (year : Int) :
    ∀ (records : List DataRecord) (m : List (String × ℚ)),
    ((records.foldl (aggStep year) m).map (fun p => p.1)) =
      addKeys (m.map (fun p => p.1)) (nonGlobalGeos records) := by
  intro records
  induction records with
  | nil => intro m; rfl
  | cons r rs ih =>
    intro m
    rw [List.foldl_cons]
    cases hgl : (r.geography == "Global") with
    | true =>
      have h1 : aggStep year m r = m := by simp [aggStep, hgl]
      have h2 : nonGlobalGeos (r :: rs) = nonGlobalGeos rs := by
        simp [nonGlobalGeos, List.filter_cons, hgl]
      rw [h1, h2, ih m]
    | false =>
      have h1 : aggStep year m r =
          mapSet m r.geography (((mapGet m r.geography).getD 0) + tsValue r year) := by
        simp [aggStep, hgl]
      have h2 : nonGlobalGeos (r :: rs) = r.geography :: nonGlobalGeos rs := by
        simp [nonGlobalGeos, List.filter_cons, hgl]
      rw [h1, h2, ih, fst_mapSet, addKeys_cons]

theorem foldl_cagrStep_keys :
    ∀ (records : List DataRecord) (m : List (String × List ℚ)),
    ((records.foldl cagrStep m).map (fun p => p.1)) =
      addKeys (m.map (fun p => p.1)) (validCagrGeos records) := by
  intro records
  induction records with
  | nil => intro m; rfl
  | cons r rs ih =>
    intro m
    rw [List.foldl_cons]
    cases hgl : (r.geography == "Global") with
    | true =>
      have hgl' : r.geography = "Global" := by simpa using hgl
      have h1 : cagrStep m r = m := by simp [cagrStep, hgl]
      have h2 : validCagrGeos (r :: rs) = validCagrGeos rs := by
        simp [validCagrGeos, List.filterMap_cons, hgl']
      rw [h1, h2, ih m]
    | false =>
      cases hv : validCagr r.cagr with
      | none =>
        have hgl' : r.geography ≠ "Global" := by simpa using hgl
        have h1 : cagrStep m r = m := by simp [cagrStep, hgl, hv]
        have h2 : validCagrGeos (r :: rs) = validCagrGeos rs := by
          simp [validCagrGeos, List.filterMap_cons, hgl', hv]
        rw [h1, h2, ih m]
      | some q =>
        have h1 : cagrStep m r =
            mapSet m r.geography (((mapGet m r.geography).getD []) ++ [q]) := by
          simp [cagrStep, hgl, hv]
        have hgl' : r.geography ≠ "Global" := by simpa using hgl
        have h2 : validCagrGeos (r :: rs) = r.geography :: validCagrGeos rs := by
          simp [validCagrGeos, List.filterMap_cons, hgl', hv]
        rw [h1, h2, ih, fst_mapSet, addKeys_cons]

theorem foldl_aggStep_getD (year : Int) (g : String) (hg : g ≠ "Global") :
    ∀ (records : List DataRecord) (m : List (String × ℚ)),
    ((mapGet (records.foldl (aggStep year) m) g).getD 0) =
      (mapGet m g).getD 0 + sumVals records year g := by
  intro records
  induction records with
  | nil => intro m; simp [sumVals]
  | cons r rs ih =>
    intro m
    rw [List.foldl_cons]
    cases hgl : (r.geography == "Global") with
    | true =>
      have hrg : (r.geography == g) = false := by
        have : r.geography = "Global" := by simpa using hgl
        simp [this]
        exact fun h => hg h.symm
      have h1 : aggStep year m r = m := by simp [aggStep, hgl]
      have h2 : sumVals (r :: rs) year g = sumVals rs year g := by
        simp [sumVals, List.filter_cons, hrg]
      rw [h1, h2, ih m]
    | false =>
      have h1 : aggStep year m r =
          mapSet m r.geography (((mapGet m r.geography).getD 0) + tsValue r year) := by
        simp [aggStep, hgl]
      cases hrg : (r.geography == g) with
      | true =>
        have hrg' : r.geography = g := by simpa using hrg
        have h2 : sumVals (r :: rs) year g = tsValue r year + sumVals rs year g := by
          simp [sumVals, List.filter_cons, hrg]
        rw [h1, h2, ih, hrg', mapGet_mapSet]
        simp only [if_true, eq_self_iff_true, Option.getD_some]
        ring
      | false =>
        have hrg' : r.geography ≠ g := by simpa using hrg
        have h2 : sumVals (r :: rs) year g = sumVals rs year g := by
          simp [sumVals, List.filter_cons, hrg]
        rw [h1, h2, ih, mapGet_mapSet]
        rw [if_neg (fun h => hrg' h.symm)]

/-! ### The lexicographic string order is asymmetric, connex and transitive -/

theorem lexLt_asymm :
    ∀ as bs : List Char, lexLt as bs = true → lexLt bs as = false := by
  intro as
  induction as with
  | nil =>
    intro bs h
    cases bs with
    | nil => simp [lexLt] at h
    | cons b bs' => rfl
  | cons a as' ih =>
    intro bs h
    cases bs with
    | nil => simp [lexLt] at h
    | cons b bs' =>
      by_cases hab : a < b
      · have hba : ¬b < a := lt_asymm hab
        simp [lexLt, hba, hab]
      · by_cases hba : b < a
        · simp [lexLt, hab, hba] at h
        · simp only [lexLt, if_neg hab, if_neg hba] at h
          simp only [lexLt, if_neg hba, if_neg hab]
          exact ih bs' h

theorem lexLt_connex :
    ∀ as bs : List Char, lexLt as bs = false → lexLt bs as = false → as = bs := by
  intro as
  induction as with
  | nil =>
    intro bs h1 _
    cases bs with
    | nil => rfl
    | cons b bs' => simp [lexLt] at h1
  | cons a as' ih =>
    intro bs h1 h2
    cases bs with
    | nil => simp [lexLt] at h2
    | cons b bs' =>
      by_cases hab : a < b
      · simp [lexLt, hab] at h1
      · by_cases hba : b < a
        · simp [lexLt, hba] at h2
        · have hab' : a = b := le_antisymm (not_lt.mp hba) (not_lt.mp hab)
          simp only [lexLt, if_neg hab, if_neg hba] at h1
          simp only [lexLt, if_neg hba, if_neg hab] at h2
          rw [hab', ih bs' h1 h2]

theorem lexLt_trans :
    ∀ as bs cs : List Char, lexLt as bs = true → lexLt bs cs = true →
    lexLt as cs = true := by
  intro as
  induction as with
  | nil =>
    intro bs cs h1 h2
    cases bs with
    | nil => simp [lexLt] at h1
    | cons b bs' =>
      cases cs with
      | nil => simp [lexLt] at h2
      | cons c cs' => rfl
  | cons a as' ih =>
    intro bs cs h1 h2
    cases bs with
    | nil => simp [lexLt] at h1
    | cons b bs' =>
      cases cs with
      | nil => simp [lexLt] at h2
      | cons c cs' =>
        by_cases hab : a < b
        · by_cases hbc : b < c
          · simp [lexLt, lt_trans hab hbc]
          · by_cases hcb : c < b
            · simp [lexLt, hbc, hcb] at h2
            · have hbc' : b = c := le_antisymm (not_lt.mp hcb) (not_lt.mp hbc)
              subst hbc'
              simp [lexLt, hab]
        · by_cases hba : b < a
          · simp [lexLt, hab, hba] at h1
          · have hab' : a = b := le_antisymm (not_lt.mp hba) (not_lt.mp hab)
            subst hab'
            simp only [lexLt, if_neg hab, if_neg hba] at h1
            by_cases hac : a < c
            · simp [lexLt, hac]
            · by_cases hca : c < a
              · simp [lexLt, hac, hca] at h2
              · simp only [lexLt, if_neg hac, if_neg hca] at h2 ⊢
                exact ih bs' cs' h1 h2

theorem strLe_total (a b : String) : strLe a b = true ∨ strLe b a = true := by
  cases h : lexLt b.data a.data with
  | false => exact Or.inl (by simp [strLe, h])
  | true => exact Or.inr (by simp [strLe, lexLt_asymm _ _ h])

theorem strLe_trans (a b c : String) (h1 : strLe a b = true)
    (h2 : strLe b c = true) : strLe a c = true := by
  simp only [strLe, Bool.not_eq_true'] at h1 h2 ⊢
  cases hca : lexLt c.data a.data with
  | false => rfl
  | true =>
    exfalso
    cases hbc : lexLt b.data c.data with
    | true =>
      have := lexLt_trans _ _ _ hbc hca
      rw [this] at h1
      exact Bool.true_eq_false.mp h1
    | false =>
      have hbceq : b.data = c.data := lexLt_connex _ _ hbc h2
      rw [← hbceq] at hca
      rw [hca] at h1
      exact Bool.true_eq_false.mp h1

theorem pairwise_of_forall {α : Type} {R : α → α → Prop} (h : ∀ a b, R a b) :
    ∀ l : List α, l.Pairwise R := by
  intro l
  induction l with
  | nil => exact List.Pairwise.nil
  | cons x xs ih => exact List.pairwise_cons.mpr ⟨fun y _ => h x y, ih⟩

theorem pairwise_stableSort_strLe (l : List String) :
    (stableSort strLe l).Pairwise (fun a b => strLe a b = true) := by
  apply pairwise_stableSort (fun a b c => strLe_trans a b c)
  apply pairwise_of_forall
  intro a b
  refine ⟨fun h => h, fun h => ?_⟩
  rcases strLe_total a b with h' | h'
  · rw [h'] at h; exact absurd h (by simp)
  · exact h'

/-! ### Unfolding and membership facts for the ranking functions -/

theorem getTopRegionsByMarketValue_eq (d : ComparisonData) (year : Int)
    (topN : Nat) :
    getTopRegionsByMarketValue (some d) year topN =
      match matrixOf d with
      | none => []
      | some records =>
        if records.isEmpty then []
        else
          ((stableSort valDescLe (aggregateByValue records year)).take
            topN).map (fun p => p.1) := by
  rcases d with ⟨dims, dd⟩
  cases dd with
  | none => rfl
  | some dd' =>
    cases hv : dd'.value with
    | none => simp [getTopRegionsByMarketValue, matrixOf, hv]
    | some v => simp [getTopRegionsByMarketValue, matrixOf, hv]

theorem getTopRegionsByCAGR_eq (d : ComparisonData) (topN : Nat) :
    getTopRegionsByCAGR (some d) topN =
      match matrixOf d with
      | none => []
      | some records =>
        if records.isEmpty then []
        else
          if (aggregateCagr records).isEmpty then []
          else
            ((stableSort valDescLe
                ((aggregateCagr records).map (fun p => (p.1, avgOf p.2)))).take
              topN).map (fun p => p.1) := by
  rcases d with ⟨dims, dd⟩
  cases dd with
  | none => rfl
  | some dd' =>
    cases hv : dd'.value with
    | none => simp [getTopRegionsByCAGR, matrixOf, hv]
    | some v => simp [getTopRegionsByCAGR, matrixOf, hv]

theorem getTopCountries_eq_getTopRegions (d : Option ComparisonData)
    (topN : Nat) :
    getTopCountriesByCAGR d topN = getTopRegionsByCAGR d topN := rfl

theorem mem_take_sort_fst {α : Type} (le : (α × ℚ) → (α × ℚ) → Bool)
    (l : List (α × ℚ)) (n : Nat) (g : α)
    (h : g ∈ ((stableSort le l).take n).map (fun p => p.1)) :
    ∃ p ∈ l, p.1 = g := by
  rcases List.mem_map.mp h with ⟨p, hp, rfl⟩
  exact ⟨p, (mem_stableSort le p l).mp (List.take_subset n _ hp), rfl⟩

theorem aggregateByValue_keys (records : List DataRecord) (year : Int) :
    (aggregateByValue records year).map (fun p => p.1) =
      addKeys [] (nonGlobalGeos records) := by
  have h := foldl_aggStep_keys year records []
  simpa [aggregateByValue] using h

theorem aggregateCagr_keys (records : List DataRecord) :
    (aggregateCagr records).map (fun p => p.1) =
      addKeys [] (validCagrGeos records) := by
  have h := foldl_cagrStep_keys records []
  simpa [aggregateCagr] using h

theorem mem_aggregateByValue (records : List DataRecord) (year : Int)
    (p : String × ℚ) (hp : p ∈ aggregateByValue records year) :
    p.1 ∈ nonGlobalGeos records ∧ p.2 = sumVals records year p.1 := by
  have hkeys := aggregateByValue_keys records year
  have hnd : ((aggregateByValue records year).map (fun p => p.1)).Nodup := by
    rw [hkeys]; exact nodup_addKeys _ [] List.nodup_nil
  have hmem1 : p.1 ∈ (aggregateByValue records year).map (fun p => p.1) :=
    List.mem_map.mpr ⟨p, hp, rfl⟩
  have hmemg : p.1 ∈ nonGlobalGeos records := by
    rw [hkeys] at hmem1
    rcases (mem_addKeys _ _ _).mp hmem1 with h | h
    · simp at h
    · exact h
  have hglob : p.1 ≠ "Global" := ((mem_nonGlobalGeos records p.1).mp hmemg).2
  have hget := mapGet_of_mem_nodup _ hnd p hp
  have hval := foldl_aggStep_getD year p.1 hglob records []
  refine ⟨hmemg, ?_⟩
  rw [show (records.foldl (aggStep year) []) = aggregateByValue records year
      from rfl, hget] at hval
  simpa [mapGet] using hval

theorem mem_aggregateCagr_fst (records : List DataRecord) (p : String × List ℚ)
    (hp : p ∈ aggregateCagr records) : p.1 ∈ validCagrGeos records := by
  have hkeys := aggregateCagr_keys records
  have hmem1 : p.1 ∈ (aggregateCagr records).map (fun p => p.1) :=
    List.mem_map.mpr ⟨p, hp, rfl⟩
  rw [hkeys] at hmem1
  rcases (mem_addKeys _ _ _).mp hmem1 with h | h
  · simp at h
  · exact h

theorem global_not_mem_topRegionsByValue (d : Option ComparisonData)
    (year : Int) (topN : Nat) :
    "Global" ∉ getTopRegionsByMarketValue d year topN := by
  cases d with
  | none => simp [getTopRegionsByMarketValue]
  | some d' =>
    rw [getTopRegionsByMarketValue_eq]
    cases hm : matrixOf d' with
    | none => simp
    | some records =>
      by_cases he : records.isEmpty
      · simp [he]
      · simp only [he, Bool.false_eq_true, if_false]
        intro h
        rcases mem_take_sort_fst _ _ _ _ h with ⟨p, hp, hfst⟩
        have := (mem_aggregateByValue records year p hp).1
        have hng := ((mem_nonGlobalGeos records p.1).mp this).2
        exact hng (by rw [hfst])

theorem global_not_mem_topRegionsByCAGR (d : Option ComparisonData)
    (topN : Nat) : "Global" ∉ getTopRegionsByCAGR d topN := by
  cases d with
  | none => simp [getTopRegionsByCAGR]
  | some d' =>
    rw [getTopRegionsByCAGR_eq]
    cases hm : matrixOf d' with
    | none => simp
    | some records =>
      by_cases he : records.isEmpty
      · simp [he]
      · by_cases hc : (aggregateCagr records).isEmpty
        · simp [he, hc]
        · simp only [he, hc, Bool.false_eq_true, if_false]
          intro h
          rcases mem_take_sort_fst _ _ _ _ h with ⟨p, hp, hfst⟩
          rcases List.mem_map.mp hp with ⟨q, hq, hpq⟩
          have hfq : q.1 = "Global" := by
            rw [← hfst, ← hpq]
          have := mem_aggregateCagr_fst records q hq
          rcases (mem_validCagrGeos records q.1).mp this with ⟨r, _, _, hng, _⟩
          exact hng (by rw [hfq])

theorem cagrRank_subset_validCagrGeos (d : ComparisonData) (topN : Nat)
    (records : List DataRecord) (hm : matrixOf d = some records) (g : String)
    (h : g ∈ getTopRegionsByCAGR (some d) topN) : g ∈ validCagrGeos records := by
  rw [getTopRegionsByCAGR_eq, hm] at h
  by_cases he : records.isEmpty
  · simp [he] at h
  · by_cases hc : (aggregateCagr records).isEmpty
    · simp [he, hc] at h
    · simp only [he, hc, Bool.false_eq_true, if_false] at h
      rcases mem_take_sort_fst _ _ _ _ h with ⟨p, hp, hfst⟩
      rcases List.mem_map.mp hp with ⟨q, hq, hpq⟩
      have hfq : q.1 = g := by rw [← hfst, ← hpq]
      have := mem_aggregateCagr_fst records q hq
      rw [hfq] at this
      exact this

/-! ### Facts about the preset builders -/

theorem getFirstSegmentType_err (d : ComparisonData) (hd : d.dimensions = none) :
    getFirstSegmentType (some d) = Except.error () := by
  simp [getFirstSegmentType, hd]

theorem getFirstSegmentType_ok_none (d : ComparisonData)
    (dims : DatasetDimensions) (hd : d.dimensions = some dims)
    (hs : dims.segments = none) : getFirstSegmentType (some d) = Except.ok none := by
  simp [getFirstSegmentType, hd, hs]

theorem getFirstSegmentType_ok_some (d : ComparisonData)
    (dims : DatasetDimensions) (segs : List (String × SegmentDimension))
    (hd : d.dimensions = some dims) (hs : dims.segments = some segs) :
    getFirstSegmentType (some d) =
      Except.ok ((segs.map (fun p => p.1)).head?) := by
  simp [getFirstSegmentType, hd, hs]

theorem getFirstLevelSegments_ok (d : ComparisonData)
    (dims : DatasetDimensions) (segs : List (String × SegmentDimension))
    (st : String) (hd : d.dimensions = some dims) (hs : dims.segments = some segs) :
    getFirstLevelSegments (some d) st =
      Except.ok (match mapGet segs st with
                 | none => []
                 | some sd => firstLevelCore sd) := by
  simp only [getFirstLevelSegments, hd, hs]
  cases mapGet segs st <;> rfl

theorem builderSegmentsStep_ok (d : ComparisonData) (dims : DatasetDimensions)
    (hd : d.dimensions = some dims) (fst : Option String)
    (hfst : getFirstSegmentType (some d) = Except.ok fst) :
    ∃ l, builderSegmentsStep d fst = Except.ok l := by
  cases fst with
  | none => exact ⟨[], rfl⟩
  | some t =>
    by_cases ht : (t == "") = true
    · exact ⟨[], by simp [builderSegmentsStep, ht]⟩
    · have ht' : (t == "") = false := by simpa using ht
      cases hs : dims.segments with
      | none =>
        rw [getFirstSegmentType_ok_none d dims hd hs] at hfst
        exact absurd hfst (by simp)
      | some segs =>
        refine ⟨(match mapGet segs t with
                 | none => []
                 | some sd => firstLevelCore sd), ?_⟩
        simp [builderSegmentsStep, ht', getFirstLevelSegments_ok d dims segs t hd hs]

theorem createTopMarketFilters_some (d : ComparisonData) (fst : Option String)
    (fls : List String) (h1 : getFirstSegmentType (some d) = Except.ok fst)
    (h2 : builderSegmentsStep d fst = Except.ok fls) :
    createTopMarketFilters (some d) = Except.ok
      { viewMode := some "geography-mode",
        geographies :=
          some (builderGeoChoice d (getTopRegionsByMarketValue (some d) 2024 3) 3),
        segments := some (builderSegChoice d fst fls),
        segmentType := some (builderSegmentType fst),
        yearRange := some (2024, 2028),
        dataType := some "value" } := by
  simp [createTopMarketFilters, h1, h2]

theorem createGrowthLeadersFilters_some (d : ComparisonData) (fst : Option String)
    (fls : List String) (h1 : getFirstSegmentType (some d) = Except.ok fst)
    (h2 : builderSegmentsStep d fst = Except.ok fls) :
    createGrowthLeadersFilters (some d) = Except.ok
      { viewMode := some "geography-mode",
        geographies := some (builderGeoChoice d (getTopRegionsByCAGR (some d) 2) 2),
        segments := some (builderSegChoice d fst fls),
        segmentType := some (builderSegmentType fst),
        yearRange := some (2024, 2032),
        dataType := some "value" } := by
  simp [createGrowthLeadersFilters, h1, h2]

theorem createEmergingMarketsFilters_some (d : ComparisonData) (fst : Option String)
    (fls : List String) (h1 : getFirstSegmentType (some d) = Except.ok fst)
    (h2 : builderSegmentsStep d fst = Except.ok fls) :
    createEmergingMarketsFilters (some d) = Except.ok
      { viewMode := some "geography-mode",
        geographies := some (builderGeoChoice d (getTopCountriesByCAGR (some d) 5) 5),
        segments := some (builderSegChoice d fst fls),
        segmentType := some (builderSegmentType fst),
        yearRange := some (2024, 2032),
        dataType := some "value" } := by
  simp [createEmergingMarketsFilters, h1, h2]

theorem createTopMarketFilters_err (d : ComparisonData)
    (hd : d.dimensions = none) :
    createTopMarketFilters (some d) = Except.error () := by
  simp [createTopMarketFilters, getFirstSegmentType_err d hd]

theorem createGrowthLeadersFilters_err (d : ComparisonData)
    (hd : d.dimensions = none) :
    createGrowthLeadersFilters (some d) = Except.error () := by
  simp [createGrowthLeadersFilters, getFirstSegmentType_err d hd]

theorem createEmergingMarketsFilters_err (d : ComparisonData)
    (hd : d.dimensions = none) :
    createEmergingMarketsFilters (some d) = Except.error () := by
  simp [createEmergingMarketsFilters, getFirstSegmentType_err d hd]

theorem getFirstSegmentType_ok_of_dims (d : ComparisonData)
    (dims : DatasetDimensions) (hd : d.dimensions = some dims) :
    ∃ v, getFirstSegmentType (some d) = Except.ok v := by
  cases hs : dims.segments with
  | none => exact ⟨none, getFirstSegmentType_ok_none d dims hd hs⟩
  | some segs => exact ⟨_, getFirstSegmentType_ok_some d dims segs hd hs⟩

theorem createTopMarketFilters_of_dims (d : ComparisonData)
    (dims : DatasetDimensions) (hd : d.dimensions = some dims) :
    ∃ fst fls, createTopMarketFilters (some d) = Except.ok
      { viewMode := some "geography-mode",
        geographies :=
          some (builderGeoChoice d (getTopRegionsByMarketValue (some d) 2024 3) 3),
        segments := some (builderSegChoice d fst fls),
        segmentType := some (builderSegmentType fst),
        yearRange := some (2024, 2028),
        dataType := some "value" } := by
  rcases getFirstSegmentType_ok_of_dims d dims hd with ⟨fst, hfst⟩
  rcases builderSegmentsStep_ok d dims hd fst hfst with ⟨fls, hfls⟩
  exact ⟨fst, fls, createTopMarketFilters_some d fst fls hfst hfls⟩

theorem createGrowthLeadersFilters_of_dims (d : ComparisonData)
    (dims : DatasetDimensions) (hd : d.dimensions = some dims) :
    ∃ fst fls, createGrowthLeadersFilters (some d) = Except.ok
      { viewMode := some "geography-mode",
        geographies := some (builderGeoChoice d (getTopRegionsByCAGR (some d) 2) 2),
        segments := some (builderSegChoice d fst fls),
        segmentType := some (builderSegmentType fst),
        yearRange := some (2024, 2032),
        dataType := some "value" } := by
  rcases getFirstSegmentType_ok_of_dims d dims hd with ⟨fst, hfst⟩
  rcases builderSegmentsStep_ok d dims hd fst hfst with ⟨fls, hfls⟩
  exact ⟨fst, fls, createGrowthLeadersFilters_some d fst fls hfst hfls⟩

theorem createEmergingMarketsFilters_of_dims (d : ComparisonData)
    (dims : DatasetDimensions) (hd : d.dimensions = some dims) :
    ∃ fst fls, createEmergingMarketsFilters (some d) = Except.ok
      { viewMode := some "geography-mode",
        geographies := some (builderGeoChoice d (getTopCountriesByCAGR (some d) 5) 5),
        segments := some (builderSegChoice d fst fls),
        segmentType := some (builderSegmentType fst),
        yearRange := some (2024, 2032),
        dataType := some "value" } := by
  rcases getFirstSegmentType_ok_of_dims d dims hd with ⟨fst, hfst⟩
  rcases builderSegmentsStep_ok d dims hd fst hfst with ⟨fls, hfls⟩
  exact ⟨fst, fls, createEmergingMarketsFilters_some d fst fls hfst hfls⟩

theorem global_not_mem_builderGeoChoice (d : ComparisonData)
    (ranked : List String) (n : Nat) (h : "Global" ∉ ranked) :
    "Global" ∉ builderGeoChoice d ranked n := by
  unfold builderGeoChoice
  by_cases he : ranked.isEmpty
  · simp only [he, if_true]
    cases hag : allGeographiesOf d with
    | none => exact h
    | some allGeos =>
      intro hmem
      have := List.take_subset n _ hmem
      have := (List.mem_filter.mp this).2
      simp at this
  · simp only [he, Bool.false_eq_true, if_false]
    exact h

theorem builderGeoChoice_fallback (d : ComparisonData) (ranked : List String)
    (n : Nat) (he : ranked = []) (geos : List String)
    (hag : allGeographiesOf d = some geos) :
    builderGeoChoice d ranked n =
      (geos.filter (fun g => !(g == "Global"))).take n := by
  subst he
  simp [builderGeoChoice, hag]

/-! ### The claims -/

/-- Claim C9: each preset builder applied to a null dataset returns exactly the
minimal configuration: `viewMode = "geography-mode"`, the preset's year range
(`[2024, 2028]` for Top Market, `[2024, 2032]` for Growth Leaders and Emerging
Markets), `dataType = "value"`, and no geographies, segments or segmentType. -/
theorem claim9_null_dataset_defaults :
    createTopMarketFilters none = Except.ok
      { viewMode := some "geography-mode", geographies := none, segments := none,
        segmentType := none, yearRange := some (2024, 2028),
        dataType := some "value" } ∧
    createGrowthLeadersFilters none = Except.ok
      { viewMode := some "geography-mode", geographies := none, segments := none,
        segmentType := none, yearRange := some (2024, 2032),
        dataType := some "value" } ∧
    createEmergingMarketsFilters none = Except.ok
      { viewMode := some "geography-mode", geographies := none, segments := none,
        segmentType := none, yearRange := some (2024, 2032),
        dataType := some "value" } :=
  ⟨rfl, rfl, rfl⟩

/-- Claim C10: for every dataset and every topN, `getTopRegionsByCAGR` and
`getTopCountriesByCAGR` return the same sequence: the two source functions
have identical bodies, so the region and country rankings are one function. -/
theorem claim10_regions_eq_countries (d : Option ComparisonData) (n : Nat) :
    getTopRegionsByCAGR d n = getTopCountriesByCAGR d n := rfl

/-- Claim C2: no ranking function ever returns `"Global"`, and the geography
list of any successfully built preset configuration never contains
`"Global"`, on any dataset, year, and topN, fallback paths included. -/
theorem claim2_global_never_selected (d : Option ComparisonData) (year : Int)
    (n1 n2 n3 : Nat) :
    "Global" ∉ getTopRegionsByMarketValue d year n1 ∧
    "Global" ∉ getTopRegionsByCAGR d n2 ∧
    "Global" ∉ getTopCountriesByCAGR d n3 ∧
    (∀ fs gl, createTopMarketFilters d = Except.ok fs →
      fs.geographies = some gl → "Global" ∉ gl) ∧
    (∀ fs gl, createGrowthLeadersFilters d = Except.ok fs →
      fs.geographies = some gl → "Global" ∉ gl) ∧
    (∀ fs gl, createEmergingMarketsFilters d = Except.ok fs →
      fs.geographies = some gl → "Global" ∉ gl) := by
  refine ⟨global_not_mem_topRegionsByValue d year n1,
    global_not_mem_topRegionsByCAGR d n2, ?_, ?_, ?_, ?_⟩
  · rw [getTopCountries_eq_getTopRegions]
    exact global_not_mem_topRegionsByCAGR d n3
  · intro fs gl hok hgl
    cases d with
    | none =>
      simp only [createTopMarketFilters] at hok
      injection hok with hfs
      rw [← hfs] at hgl
      simp at hgl
    | some d' =>
      cases hd : d'.dimensions with
      | none =>
        rw [createTopMarketFilters_err d' hd] at hok
        exact absurd hok (by simp)
      | some dims =>
        rcases createTopMarketFilters_of_dims d' dims hd with ⟨fst, fls, heq⟩
        rw [heq] at hok
        injection hok with hfs
        rw [← hfs] at hgl
        simp only [Option.some.injEq] at hgl
        rw [← hgl]
        exact global_not_mem_builderGeoChoice d' _ 3
          (global_not_mem_topRegionsByValue (some d') 2024 3)
  · intro fs gl hok hgl
    cases d with
    | none =>
      simp only [createGrowthLeadersFilters] at hok
      injection hok with hfs
      rw [← hfs] at hgl
      simp at hgl
    | some d' =>
      cases hd : d'.dimensions with
      | none =>
        rw [createGrowthLeadersFilters_err d' hd] at hok
        exact absurd hok (by simp)
      | some dims =>
        rcases createGrowthLeadersFilters_of_dims d' dims hd with ⟨fst, fls, heq⟩
        rw [heq] at hok
        injection hok with hfs
        rw [← hfs] at hgl
        simp only [Option.some.injEq] at hgl
        rw [← hgl]
        exact global_not_mem_builderGeoChoice d' _ 2
          (global_not_mem_topRegionsByCAGR (some d') 2)
  · intro fs gl hok hgl
    cases d with
    | none =>
      simp only [createEmergingMarketsFilters] at hok
      injection hok with hfs
      rw [← hfs] at hgl
      simp at hgl
    | some d' =>
      cases hd : d'.dimensions with
      | none =>
        rw [createEmergingMarketsFilters_err d' hd] at hok
        exact absurd hok (by simp)
      | some dims =>
        rcases createEmergingMarketsFilters_of_dims d' dims hd with ⟨fst, fls, heq⟩
        rw [heq] at hok
        injection hok with hfs
        rw [← hfs] at hgl
        simp only [Option.some.injEq] at hgl
        rw [← hgl]
        apply global_not_mem_builderGeoChoice d' _ 5
        rw [getTopCountries_eq_getTopRegions]
        exact global_not_mem_topRegionsByCAGR (some d') 5

/-- Claim C2 witness: the builder hypotheses discharged at the fallback
dataset, whose Top Market preset selects geographies A, B, C. -/
theorem claim2_global_never_selected_witness :
    "Global" ∉ (["A", "B", "C"] : List String) :=
  (claim2_global_never_selected (some fallbackDataset) 2024 3 2 5).2.2.2.1
    { viewMode := some "geography-mode", geographies := some ["A", "B", "C"],
      segments := some [], segmentType := some "By Drug Class",
      yearRange := some (2024, 2028), dataType := some "value" }
    ["A", "B", "C"] rfl rfl

/-- Claim C6: a geography all of whose records carry an absent, null or NaN
CAGR never appears in the output of `getTopRegionsByCAGR` or
`getTopCountriesByCAGR`: zero valid observations exclude it from ranking. -/
theorem claim6_no_valid_cagr_excluded (d : Option ComparisonData) (n k : Nat)
    (g : String)
    (h : ∀ (d' : ComparisonData) (records : List DataRecord), d = some d' →
      matrixOf d' = some records → ∀ r ∈ records, r.geography = g →
      validCagr r.cagr = none) :
    g ∉ getTopRegionsByCAGR d n ∧ g ∉ getTopCountriesByCAGR d k := by
  have main : ∀ m : Nat, g ∉ getTopRegionsByCAGR d m := by
    intro m hg
    cases d with
    | none => simp [getTopRegionsByCAGR] at hg
    | some d' =>
      cases hm : matrixOf d' with
      | none =>
        rw [getTopRegionsByCAGR_eq, hm] at hg
        simp at hg
      | some records =>
        have hsub := cagrRank_subset_validCagrGeos d' m records hm g hg
        rcases (mem_validCagrGeos records g).mp hsub with ⟨r, hr, hge, _, q, hv⟩
        have hnone := h d' records rfl hm r hr hge
        rw [hnone] at hv
        exact absurd hv (by simp)
  refine ⟨main n, ?_⟩
  rw [getTopCountries_eq_getTopRegions]
  exact main k

/-- Claim C6 witness: in the growth scenario, geography C has only a NaN CAGR
and is excluded from both rankings. -/
theorem claim6_no_valid_cagr_excluded_witness :
    "C" ∉ getTopRegionsByCAGR (some growthDataset) 2 ∧
    "C" ∉ getTopCountriesByCAGR (some growthDataset) 5 := by
  apply claim6_no_valid_cagr_excluded (some growthDataset) 2 5 "C"
  intro d' records hd hm r hr hge
  have hd' : growthDataset = d' := by injection hd
  rw [← hd'] at hm
  have hrec : records = growthRecords := by
    have : matrixOf growthDataset = some growthRecords := rfl
    rw [this] at hm
    injection hm with h'
    exact h'.symm
  rw [hrec] at hr
  fin_cases hr
  · exact absurd hge (by decide)
  · exact absurd hge (by decide)
  · rfl

/-- Claim C1 counterexample: the engine is not total on the malformed shapes
the claim covers.  With `dimensions` absent, `getFirstSegmentType` and all
three preset builders throw a TypeError (the source reads
`data.dimensions.segments` unguarded); with `dimensions.segments` absent,
`getFirstLevelSegments` throws (`data.dimensions.segments[segmentType]`). -/
theorem claim1_totality_counterexample :
    getFirstSegmentType (some malformedNoDims) = Except.error () ∧
    getFirstLevelSegments (some malformedNoDims) "By Drug Class" =
      Except.error () ∧
    getFirstLevelSegments (some malformedNoSegments) "By Drug Class" =
      Except.error () ∧
    createTopMarketFilters (some malformedNoDims) = Except.error () ∧
    createGrowthLeadersFilters (some malformedNoDims) = Except.error () ∧
    createEmergingMarketsFilters (some malformedNoDims) = Except.error () :=
  ⟨rfl, rfl, rfl, rfl, rfl, rfl⟩

/-- Claim C1 as amended: the three ranking functions are total on every
dataset shape (they are plain list-valued functions here);
`getFirstLevelSegments`, `getFirstSegmentType` and the three preset builders
all return a value for a null dataset, and they never throw provided
`data.dimensions` is present — `getFirstLevelSegments` additionally needs
`dimensions.segments` present.  Deeper missing shapes are treated as empty
collections. -/
theorem claim1_totality_amended :
    (∀ st, getFirstLevelSegments none st = Except.ok []) ∧
    getFirstSegmentType none = Except.ok none ∧
    (∃ fs, createTopMarketFilters none = Except.ok fs) ∧
    (∃ fs, createGrowthLeadersFilters none = Except.ok fs) ∧
    (∃ fs, createEmergingMarketsFilters none = Except.ok fs) ∧
    (∀ (d : ComparisonData) (dims : DatasetDimensions),
      d.dimensions = some dims →
      (∃ v, getFirstSegmentType (some d) = Except.ok v) ∧
      (∀ segs st, dims.segments = some segs →
        ∃ l, getFirstLevelSegments (some d) st = Except.ok l) ∧
      (∃ fs, createTopMarketFilters (some d) = Except.ok fs) ∧
      (∃ fs, createGrowthLeadersFilters (some d) = Except.ok fs) ∧
      (∃ fs, createEmergingMarketsFilters (some d) = Except.ok fs)) := by
  refine ⟨fun st => rfl, rfl, ⟨_, rfl⟩, ⟨_, rfl⟩, ⟨_, rfl⟩, ?_⟩
  intro d dims hd
  refine ⟨getFirstSegmentType_ok_of_dims d dims hd, ?_, ?_, ?_, ?_⟩
  · intro segs st hs
    exact ⟨_, getFirstLevelSegments_ok d dims segs st hd hs⟩
  · rcases createTopMarketFilters_of_dims d dims hd with ⟨fst, fls, heq⟩
    exact ⟨_, heq⟩
  · rcases createGrowthLeadersFilters_of_dims d dims hd with ⟨fst, fls, heq⟩
    exact ⟨_, heq⟩
  · rcases createEmergingMarketsFilters_of_dims d dims hd with ⟨fst, fls, heq⟩
    exact ⟨_, heq⟩

/-- Claim C1 witness: the amended totality applied to the hierarchy dataset,
whose `dimensions` and `dimensions.segments` are present. -/
theorem claim1_totality_amended_witness :
    (∃ v, getFirstSegmentType (some hierarchyDataset) = Except.ok v) ∧
    (∃ l, getFirstLevelSegments (some hierarchyDataset) "T" = Except.ok l) ∧
    (∃ fs, createTopMarketFilters (some hierarchyDataset) = Except.ok fs) := by
  have h := claim1_totality_amended.2.2.2.2.2 hierarchyDataset
    { geographies := none, segments := some [("T", hierarchySegDim)] } rfl
  exact ⟨h.1, h.2.1 [("T", hierarchySegDim)] "T" rfl, h.2.2.1⟩

/-- Claim C3 counterexample: with `all_geographies = ["Global"]` (non-empty)
and an empty ranking, the Top Market builder returns an empty geography list,
refuting the claim's "never returns an empty geography list". -/
theorem claim3_fallback_counterexample :
    getTopRegionsByMarketValue (some globalOnlyDataset) 2024 3 = [] ∧
    allGeographiesOf globalOnlyDataset = some ["Global"] ∧
    (["Global"] : List String) ≠ [] ∧
    createTopMarketFilters (some globalOnlyDataset) = Except.ok
      { viewMode := some "geography-mode", geographies := some [],
        segments := some [], segmentType := some "By Drug Class",
        yearRange := some (2024, 2028), dataType := some "value" } :=
  ⟨rfl, rfl, by simp, rfl⟩

/-- Claim C3 as amended: on the scenario dataset (`all_geographies =
["Global","A","B","C","D"]`, no value records) the ranking is empty and the
Top Market builder substitutes `["A","B","C"]`; in general, whenever the
ranking is empty and `all_geographies` is present and non-empty, the builder
substitutes the first 3 non-Global entries in listed order, and that list is
non-empty whenever `all_geographies` contains a non-Global entry. -/
theorem claim3_fallback_amended :
    (getTopRegionsByMarketValue (some fallbackDataset) 2024 3 = [] ∧
     createTopMarketFilters (some fallbackDataset) = Except.ok
       { viewMode := some "geography-mode", geographies := some ["A", "B", "C"],
         segments := some [], segmentType := some "By Drug Class",
         yearRange := some (2024, 2028), dataType := some "value" }) ∧
    (∀ (d : ComparisonData) (geos : List String),
      getTopRegionsByMarketValue (some d) 2024 3 = [] →
      allGeographiesOf d = some geos → geos ≠ [] →
      ∃ fs, createTopMarketFilters (some d) = Except.ok fs ∧
        fs.geographies =
          some ((geos.filter (fun g => !(g == "Global"))).take 3) ∧
        ((geos.filter (fun g => !(g == "Global"))) ≠ [] →
          fs.geographies ≠ some [])) := by
  refine ⟨⟨rfl, rfl⟩, ?_⟩
  intro d geos hrank hag hne
  have hd : ∃ dims, d.dimensions = some dims := by
    cases hdim : d.dimensions with
    | none =>
      rw [allGeographiesOf, hdim] at hag
      exact absurd hag (by simp)
    | some dims => exact ⟨dims, rfl⟩
  rcases hd with ⟨dims, hdim⟩
  rcases createTopMarketFilters_of_dims d dims hdim with ⟨fst, fls, heq⟩
  have hchoice : builderGeoChoice d (getTopRegionsByMarketValue (some d) 2024 3) 3 =
      (geos.filter (fun g => !(g == "Global"))).take 3 :=
    builderGeoChoice_fallback d _ 3 hrank geos hag
  refine ⟨_, heq, ?_, ?_⟩
  · show some (builderGeoChoice d (getTopRegionsByMarketValue (some d) 2024 3) 3) =
      some ((geos.filter (fun g => !(g == "Global"))).take 3)
    rw [hchoice]
  · intro hfne
    show some (builderGeoChoice d (getTopRegionsByMarketValue (some d) 2024 3) 3) ≠
      some ([] : List String)
    rw [hchoice]
    intro hcontra
    have htake : (geos.filter (fun g => !(g == "Global"))).take 3 = [] := by
      injection hcontra
    cases hfl : geos.filter (fun g => !(g == "Global")) with
    | nil => exact hfne hfl
    | cons a l =>
      rw [hfl] at htake
      simp [List.take] at htake

/-- Claim C3 witness: the amended fallback behaviour at the scenario dataset. -/
theorem claim3_fallback_amended_witness :
    ∃ fs, createTopMarketFilters (some fallbackDataset) = Except.ok fs ∧
      fs.geographies = some (((["Global", "A", "B", "C", "D"] : List String).filter
        (fun g => !(g == "Global"))).take 3) ∧
      (((["Global", "A", "B", "C", "D"] : List String).filter
        (fun g => !(g == "Global"))) ≠ [] → fs.geographies ≠ some []) :=
  claim3_fallback_amended.2 fallbackDataset ["Global", "A", "B", "C", "D"]
    rfl rfl (by simp)

/-- Claim C8: in the growth scenario (A averages 5, B averages 9, C has no
valid CAGR), `getTopRegionsByCAGR` with topN 2 returns `["B", "A"]` — the
per-geography mean of valid CAGRs sorted descending — and the Growth Leaders
preset built on that dataset carries `yearRange = [2024, 2032]`. -/
theorem claim8_growth_scenario :
    getTopRegionsByCAGR (some growthDataset) 2 = ["B", "A"] ∧
    createGrowthLeadersFilters (some growthDataset) = Except.ok
      { viewMode := some "geography-mode", geographies := some ["B", "A"],
        segments := some [], segmentType := some "By Drug Class",
        yearRange := some (2024, 2032), dataType := some "value" } := by
  have hagg : aggregateCagr growthRecords = [("A", [(5 : ℚ)]), ("B", [(9 : ℚ)])] := by
    decide
  have havg : [("A", [(5 : ℚ)]), ("B", [(9 : ℚ)])].map (fun p => (p.1, avgOf p.2)) =
      [("A", (5 : ℚ)), ("B", (9 : ℚ))] := by
    simp [avgOf]
  have h1 : getTopRegionsByCAGR (some growthDataset) 2 = ["B", "A"] := by
    have hm : matrixOf growthDataset = some growthRecords := rfl
    rw [getTopRegionsByCAGR_eq, hm]
    simp only [hagg, havg]
    decide
  refine ⟨h1, ?_⟩
  have heq := createGrowthLeadersFilters_some growthDataset none [] rfl rfl
  rw [heq]
  have hgeo : builderGeoChoice growthDataset
      (getTopRegionsByCAGR (some growthDataset) 2) 2 = ["B", "A"] := by
    rw [h1]
    rfl
  rw [hgeo]
  rfl

/-- Membership in the first-level segment list, before considering order:
parents with at least one child that are nobody's child, plus items that are
neither parents nor children. -/
theorem mem_firstLevelCore (sd : SegmentDimension) (s : String) :
    s ∈ firstLevelCore sd ↔
      ((∃ ch, mapGet (sd.hierarchy.getD []) s = some ch ∧ ch ≠ [] ∧
          s ∉ allChildrenOf (sd.hierarchy.getD [])) ∨
       (s ∈ sd.items.getD [] ∧ s ∉ allChildrenOf (sd.hierarchy.getD []) ∧
          mapGet (sd.hierarchy.getD []) s = none)) := by
  rw [show firstLevelCore sd = stableSort strLe
      ((((sd.hierarchy.getD []).map (fun p => p.1)).filter
        (fun p => !((allChildrenOf (sd.hierarchy.getD [])).contains p) &&
          !(((mapGet (sd.hierarchy.getD []) p).getD []).isEmpty))) ++
       ((sd.items.getD []).filter
        (fun q => !((allChildrenOf (sd.hierarchy.getD [])).contains q) &&
          ((mapGet (sd.hierarchy.getD []) q).isNone)))) from rfl]
  rw [mem_stableSort, List.mem_append]
  have hcontains : ∀ l : List String, ∀ a : String,
      (l.contains a = false) ↔ a ∉ l := by
    intro l a
    constructor
    · intro h hmem
      have h2 : l.contains a = true := List.elem_iff.mpr hmem
      rw [h2] at h
      exact absurd h (by simp)
    · intro h
      cases hc : l.contains a with
      | false => rfl
      | true => exact absurd (List.elem_iff.mp hc) h
  constructor
  · rintro (h1 | h2)
    · left
      rcases List.mem_filter.mp h1 with ⟨hmem, hcond⟩
      rw [Bool.and_eq_true] at hcond
      rcases hcond with ⟨hnc, hne⟩
      have hnc' : s ∉ allChildrenOf (sd.hierarchy.getD []) :=
        (hcontains _ _).mp (by simpa using hnc)
      have hsome : mapGet (sd.hierarchy.getD []) s ≠ none := by
        intro hnone
        exact (mapGet_eq_none_iff _ _).mp hnone hmem
      rcases Option.ne_none_iff_exists'.mp hsome with ⟨ch, hch⟩
      refine ⟨ch, hch, ?_, hnc'⟩
      intro hchnil
      rw [hch, hchnil] at hne
      simp at hne
    · right
      rcases List.mem_filter.mp h2 with ⟨hmem, hcond⟩
      rw [Bool.and_eq_true] at hcond
      rcases hcond with ⟨hnc, hnone⟩
      exact ⟨hmem, (hcontains _ _).mp (by simpa using hnc),
        Option.isNone_iff_eq_none.mp hnone⟩
  · rintro (⟨ch, hch, hchne, hnc⟩ | ⟨hmem, hnc, hnone⟩)
    · left
      rw [List.mem_filter]
      refine ⟨?_, ?_⟩
      · by_contra hnot
        have hnone := (mapGet_eq_none_iff (sd.hierarchy.getD []) s).mpr hnot
        rw [hnone] at hch
        exact absurd hch (by simp)
      · rw [Bool.and_eq_true]
        refine ⟨by simpa using (hcontains _ _).mpr hnc, ?_⟩
        rw [hch]
        simpa [List.isEmpty_iff] using hchne
    · right
      rw [List.mem_filter]
      refine ⟨hmem, ?_⟩
      rw [Bool.and_eq_true]
      exact ⟨by simpa using (hcontains _ _).mpr hnc,
        Option.isNone_iff_eq_none.mpr hnone⟩

/-- Claim C4: `getFirstLevelSegments` returns exactly the hierarchy keys that
have at least one child and are nobody's child, together with the items that
are neither hierarchy keys nor children, sorted lexicographically ascending;
on the concrete scenario (`items = [X,Y,Z,W]`, `hierarchy = {X: [Y,Z]}`) it
returns `["W", "X"]`. -/
theorem claim4_first_level_segments :
    (∀ (d : ComparisonData) (dims : DatasetDimensions)
       (segs : List (String × SegmentDimension)) (st : String)
       (sd : SegmentDimension),
      d.dimensions = some dims → dims.segments = some segs →
      mapGet segs st = some sd →
      ∃ res, getFirstLevelSegments (some d) st = Except.ok res ∧
        res.Pairwise (fun a b => strLe a b = true) ∧
        (∀ s, s ∈ res ↔
          ((∃ ch, mapGet (sd.hierarchy.getD []) s = some ch ∧ ch ≠ [] ∧
              s ∉ allChildrenOf (sd.hierarchy.getD [])) ∨
           (s ∈ sd.items.getD [] ∧ s ∉ allChildrenOf (sd.hierarchy.getD []) ∧
              mapGet (sd.hierarchy.getD []) s = none)))) ∧
    getFirstLevelSegments (some hierarchyDataset) "T" = Except.ok ["W", "X"] := by
  constructor
  · intro d dims segs st sd hd hs hsd
    refine ⟨firstLevelCore sd, ?_, ?_, fun s => mem_firstLevelCore sd s⟩
    · rw [getFirstLevelSegments_ok d dims segs st hd hs, hsd]
    · exact pairwise_stableSort_strLe _
  · rfl

/-- Claim C4 witness: the general characterisation applied to the hierarchy
scenario dataset. -/
theorem claim4_first_level_segments_witness :
    ∃ res, getFirstLevelSegments (some hierarchyDataset) "T" = Except.ok res ∧
      res.Pairwise (fun a b => strLe a b = true) ∧
      (∀ s, s ∈ res ↔
        ((∃ ch, mapGet (hierarchySegDim.hierarchy.getD []) s = some ch ∧
            ch ≠ [] ∧ s ∉ allChildrenOf (hierarchySegDim.hierarchy.getD [])) ∨
         (s ∈ hierarchySegDim.items.getD [] ∧
            s ∉ allChildrenOf (hierarchySegDim.hierarchy.getD []) ∧
            mapGet (hierarchySegDim.hierarchy.getD []) s = none))) :=
  claim4_first_level_segments.1 hierarchyDataset
    { geographies := none, segments := some [("T", hierarchySegDim)] }
    [("T", hierarchySegDim)] "T" hierarchySegDim rfl rfl rfl

/-- Claim C7: the value ranking returns at most topN names; and exactly
`min(topN, number of distinct non-Global geographies)` when the records'
geographies all come from the unique geography list and every listed
geography has a record carrying the requested year. -/
theorem claim7_truncation :
    (∀ (d : Option ComparisonData) (year : Int) (n : Nat),
      (getTopRegionsByMarketValue d year n).length ≤ n) ∧
    (∀ (d : ComparisonData) (records : List DataRecord) (geos : List String)
       (year : Int) (n : Nat),
      matrixOf d = some records → allGeographiesOf d = some geos →
      geos.Nodup →
      (∀ r ∈ records, r.geography ∈ geos) →
      (∀ g ∈ geos, ∃ r ∈ records, r.geography = g ∧ hasYear r year = true) →
      (getTopRegionsByMarketValue (some d) year n).length =
        min n ((geos.filter (fun g => !(g == "Global"))).length)) := by
  constructor
  · intro d year n
    cases d with
    | none => simp [getTopRegionsByMarketValue]
    | some d' =>
      rw [getTopRegionsByMarketValue_eq]
      cases hm : matrixOf d' with
      | none => simp
      | some records =>
        by_cases he : records.isEmpty
        · simp [he]
        · simp only [he, Bool.false_eq_true, if_false]
          rw [List.length_map, List.length_take]
          exact min_le_left _ _
  · intro d records geos year n hm hag hnd h4 h5
    rw [getTopRegionsByMarketValue_eq, hm]
    by_cases he : records.isEmpty
    · have hgeos : geos = [] := by
        cases hra : geos with
        | nil => rfl
        | cons g gs' =>
          exfalso
          rcases h5 g (by rw [hra]; exact List.mem_cons_self g gs') with ⟨r, hr, _⟩
          rw [List.isEmpty_iff] at he
          rw [he] at hr
          exact absurd hr (List.not_mem_nil r)
      simp [he, hgeos]
    · simp only [he, Bool.false_eq_true, if_false]
      rw [List.length_map, List.length_take, length_stableSort]
      have hlen : (aggregateByValue records year).length =
          (geos.filter (fun g => !(g == "Global"))).length := by
        have hk : (aggregateByValue records year).length =
            ((aggregateByValue records year).map (fun p => p.1)).length :=
          (List.length_map _ _).symm
        rw [hk, aggregateByValue_keys]
        have hnd1 : (addKeys [] (nonGlobalGeos records)).Nodup :=
          nodup_addKeys _ [] List.nodup_nil
        have hnd2 : (geos.filter (fun g => !(g == "Global"))).Nodup :=
          List.Nodup.filter _ hnd
        have hiff : ∀ a, a ∈ addKeys [] (nonGlobalGeos records) ↔
            a ∈ geos.filter (fun g => !(g == "Global")) := by
          intro a
          rw [mem_addKeys]
          simp only [List.not_mem_nil, false_or]
          rw [mem_nonGlobalGeos, List.mem_filter]
          constructor
          · rintro ⟨⟨r, hr, rfl⟩, hng⟩
            exact ⟨h4 r hr, by simpa using hng⟩
          · rintro ⟨hmemg, hng⟩
            have hng' : a ≠ "Global" := by simpa using hng
            rcases h5 a hmemg with ⟨r, hr, hga, _⟩
            exact ⟨⟨r, hr, hga⟩, hng'⟩
        exact List.Perm.length_eq
          ((List.perm_ext_iff_of_nodup hnd1 hnd2).mpr hiff)
      rw [hlen]

/-- Claim C7 witness: the exact-length part at the stable-tie dataset, where
all three non-Global geographies have a record for 2024. -/
theorem claim7_truncation_witness :
    (getTopRegionsByMarketValue (some tieDataset) 2024 2).length =
      min 2 (((["Global", "P", "Q", "R"] : List String).filter
        (fun g => !(g == "Global"))).length) :=
  claim7_truncation.2 tieDataset tieRecords ["Global", "P", "Q", "R"] 2024 2
    rfl rfl (by decide) (by decide) (by decide)

/-! ### Stability: first-occurrence order in the records -/

theorem recFirstIdx_cons (r : DataRecord) (rs : List DataRecord) (g : String) :
    recFirstIdx (r :: rs) g =
      if (r.geography == g) = true then 0 else recFirstIdx rs g + 1 := by
  rw [recFirstIdx, List.findIdx_cons]
  cases h : (r.geography == g) with
  | true => simp [h]
  | false => simp [h, recFirstIdx]

theorem posIn_lt_iff_recFirstIdx (g g' : String) (hg : g ≠ "Global")
    (hg' : g' ≠ "Global") :
    ∀ records : List DataRecord,
    g ∈ nonGlobalGeos records → g' ∈ nonGlobalGeos records →
    (posIn (nonGlobalGeos records) g < posIn (nonGlobalGeos records) g' ↔
     recFirstIdx records g < recFirstIdx records g') := by
  intro records
  induction records with
  | nil => intro hmg _; simp [nonGlobalGeos] at hmg
  | cons r rs ih =>
    intro hmg hmg'
    cases hgl : (r.geography == "Global") with
    | true =>
      have hglr : r.geography = "Global" := by simpa using hgl
      have hng : nonGlobalGeos (r :: rs) = nonGlobalGeos rs := by
        simp [nonGlobalGeos, List.filter_cons, hgl]
      have hr1 : (r.geography == g) = false := by
        simp only [beq_eq_false_iff_ne, ne_eq, hglr]
        exact fun h => hg h.symm
      have hr2 : (r.geography == g') = false := by
        simp only [beq_eq_false_iff_ne, ne_eq, hglr]
        exact fun h => hg' h.symm
      rw [hng] at hmg hmg' ⊢
      have e1 : recFirstIdx (r :: rs) g = recFirstIdx rs g + 1 := by
        rw [recFirstIdx_cons, hr1]; simp
      have e2 : recFirstIdx (r :: rs) g' = recFirstIdx rs g' + 1 := by
        rw [recFirstIdx_cons, hr2]; simp
      rw [e1, e2, add_lt_add_iff_right]
      exact ih hmg hmg'
    | false =>
      have hng : nonGlobalGeos (r :: rs) = r.geography :: nonGlobalGeos rs := by
        simp [nonGlobalGeos, List.filter_cons, hgl]
      rw [hng] at hmg hmg' ⊢
      by_cases h1 : r.geography = g
      · by_cases h2 : r.geography = g'
        · have hgg : g = g' := h1.symm.trans h2
          rw [← hgg]
          simp
        · have hr1 : (r.geography == g) = true := by simp [h1]
          have hr2 : (r.geography == g') = false := by simpa using h2
          have e1 : recFirstIdx (r :: rs) g = 0 := by
            rw [recFirstIdx_cons, hr1]; simp
          have e2 : recFirstIdx (r :: rs) g' = recFirstIdx rs g' + 1 := by
            rw [recFirstIdx_cons, hr2]; simp
          have p1 : posIn (r.geography :: nonGlobalGeos rs) g = 0 := by
            rw [← h1]; exact posIn_cons_self _ _
          have p2 : posIn (r.geography :: nonGlobalGeos rs) g' =
              posIn (nonGlobalGeos rs) g' + 1 := posIn_cons_ne g' r.geography _ h2
          rw [p1, p2, e1, e2]
          simp
      · by_cases h2 : r.geography = g'
        · have hr1 : (r.geography == g) = false := by simpa using h1
          have hr2 : (r.geography == g') = true := by simp [h2]
          have e1 : recFirstIdx (r :: rs) g = recFirstIdx rs g + 1 := by
            rw [recFirstIdx_cons, hr1]; simp
          have e2 : recFirstIdx (r :: rs) g' = 0 := by
            rw [recFirstIdx_cons, hr2]; simp
          have p1 : posIn (r.geography :: nonGlobalGeos rs) g =
              posIn (nonGlobalGeos rs) g + 1 := posIn_cons_ne g r.geography _ h1
          have p2 : posIn (r.geography :: nonGlobalGeos rs) g' = 0 := by
            rw [← h2]; exact posIn_cons_self _ _
          rw [p1, p2, e1, e2]
          simp
        · have hr1 : (r.geography == g) = false := by simpa using h1
          have hr2 : (r.geography == g') = false := by simpa using h2
          have hmg2 : g ∈ nonGlobalGeos rs := by
            rcases List.mem_cons.mp hmg with h | h
            · exact absurd h.symm h1
            · exact h
          have hmg2' : g' ∈ nonGlobalGeos rs := by
            rcases List.mem_cons.mp hmg' with h | h
            · exact absurd h.symm h2
            · exact h
          have e1 : recFirstIdx (r :: rs) g = recFirstIdx rs g + 1 := by
            rw [recFirstIdx_cons, hr1]; simp
          have e2 : recFirstIdx (r :: rs) g' = recFirstIdx rs g' + 1 := by
            rw [recFirstIdx_cons, hr2]; simp
          rw [posIn_cons_ne g r.geography _ h1, posIn_cons_ne g' r.geography _ h2,
            e1, e2, add_lt_add_iff_right, add_lt_add_iff_right]
          exact ih hmg2 hmg2'

/-- Claim C5: the value ranking is sorted descending by each geography's
value summed over all its records for the year (missing year contributing 0),
and ties are broken stably: on equal totals, the geography whose first record
appears earlier in the record sequence appears earlier in the output. -/
theorem claim5_descending_stable (d : ComparisonData)
    (records : List DataRecord) (year : Int) (n : Nat)
    (hm : matrixOf d = some records) :
    (getTopRegionsByMarketValue (some d) year n).Pairwise (fun g g' =>
      sumVals records year g' < sumVals records year g ∨
      (sumVals records year g = sumVals records year g' ∧
        recFirstIdx records g < recFirstIdx records g')) := by
  rw [getTopRegionsByMarketValue_eq, hm]
  by_cases he : records.isEmpty
  · simp [he]
  · simp only [he, Bool.false_eq_true, if_false]
    have hkeys : (aggregateByValue records year).map (fun p => p.1) =
        addKeys [] (nonGlobalGeos records) := aggregateByValue_keys records year
    have hpos0 : ((aggregateByValue records year).map (fun p => p.1)).Pairwise
        (fun a b => posIn (nonGlobalGeos records) a <
          posIn (nonGlobalGeos records) b) := by
      rw [hkeys]; exact aggKeys_sorted_first_occurrence (nonGlobalGeos records)
    have hpos : (aggregateByValue records year).Pairwise
        (fun a b => posIn (nonGlobalGeos records) a.1 <
          posIn (nonGlobalGeos records) b.1) :=
      (@List.pairwise_map (String × ℚ) String (fun p => p.1)
        (fun a b => posIn (nonGlobalGeos records) a <
          posIn (nonGlobalGeos records) b)
        (aggregateByValue records year)).mp hpos0
    have hR : (stableSort valDescLe (aggregateByValue records year)).Pairwise
        (fun a b => b.2 < a.2 ∨ (a.2 = b.2 ∧
          posIn (nonGlobalGeos records) a.1 <
            posIn (nonGlobalGeos records) b.1)) := by
      apply pairwise_stableSort
      · rintro a b c (h1 | ⟨h1e, h1q⟩) (h2 | ⟨h2e, h2q⟩)
        · exact Or.inl (lt_trans h2 h1)
        · exact Or.inl (by rw [← h2e]; exact h1)
        · exact Or.inl (by rw [h1e]; exact h2)
        · exact Or.inr ⟨h1e.trans h2e, lt_trans h1q h2q⟩
      · refine hpos.imp ?_
        intro a b hq
        constructor
        · intro hle
          have hle' : b.2 ≤ a.2 := of_decide_eq_true hle
          rcases lt_or_eq_of_le hle' with h | h
          · exact Or.inl h
          · exact Or.inr ⟨h.symm, hq⟩
        · intro hle
          have hnot : ¬(b.2 ≤ a.2) := of_decide_eq_false hle
          exact Or.inl (not_le.mp hnot)
    have hRt := List.Pairwise.sublist (List.take_sublist n _) hR
    rw [List.pairwise_map]
    apply List.Pairwise.imp_of_mem ?_ hRt
    intro a b ha hb hRab
    have ha' : a ∈ aggregateByValue records year :=
      (mem_stableSort _ _ _).mp (List.take_subset n _ ha)
    have hb' : b ∈ aggregateByValue records year :=
      (mem_stableSort _ _ _).mp (List.take_subset n _ hb)
    rcases mem_aggregateByValue records year a ha' with ⟨hamem, haval⟩
    rcases mem_aggregateByValue records year b hb' with ⟨hbmem, hbval⟩
    have hga : a.1 ≠ "Global" := ((mem_nonGlobalGeos records a.1).mp hamem).2
    have hgb : b.1 ≠ "Global" := ((mem_nonGlobalGeos records b.1).mp hbmem).2
    rcases hRab with h | ⟨heq, hq⟩
    · left
      rw [← haval, ← hbval]
      exact h
    · right
      refine ⟨by rw [← haval, ← hbval]; exact heq, ?_⟩
      exact (posIn_lt_iff_recFirstIdx a.1 b.1 hga hgb records hamem hbmem).mp hq

/-- Claim C5 witness: the stable-tie dataset, where P and Q tie on total 5 and
P's first record comes first. -/
theorem claim5_descending_stable_witness :
    (getTopRegionsByMarketValue (some tieDataset) 2024 10).Pairwise (fun g g' =>
      sumVals tieRecords 2024 g' < sumVals tieRecords 2024 g ∨
      (sumVals tieRecords 2024 g = sumVals tieRecords 2024 g' ∧
        recFirstIdx tieRecords g < recFirstIdx tieRecords g')) :=
  claim5_descending_stable tieDataset tieRecords 2024 10 rfl
